import Mathlib

/-!
Shallow embedding of the `mdb-async` MDB vending-machine driver
(`src/lib.rs`, `src/coin_acceptor.rs`, `src/cashless_device.rs`).

The 9-bit UART wire codec is modelled at the byte level (`sendDataWire`,
`receive_response`).  Peripheral code above the codec is modelled against a
scripted bus (`Bus`): each `Mdb::receive_response` call consumes the next
scripted outcome, and every `Mdb::send_data` appends the data frame to a log.
Machine integers are `Nat` with explicit `% 2^w` wrapping where the Rust
release-mode semantics wraps (`w8`, `w16`).  Fixed-size Rust strings are kept
as raw byte lists (UTF-8 validation does not affect any verified property).
-/

namespace MdbAsync

/-- Truncation to `u8` (Rust release-mode wrapping semantics). -/
def w8 (n : Nat) : Nat := n % 256

/-- Truncation to `u16` (Rust release-mode wrapping semantics). -/
def w16 (n : Nat) : Nat := n % 65536

/-- `MDBStatus` from `lib.rs`. -/
inductive MDBStatus
  | ACK
  | NAK
  | RET
deriving DecidableEq, Repr

/-- `MDBError` from `lib.rs`. -/
inductive MDBError
  | Timeout
  | WrongChecksum
  | BufferOverrun
  | MalformedMessage
  | UartError
deriving DecidableEq, Repr

/-! ## Wire codec (`Mdb::send_data`, `Mdb::receive_response`) -/

/-- The `[mode_flag, data_byte]` pairs written by the loop in `Mdb::send_data`:
the byte at position 0 of the message carries mode flag 1, the rest 0. -/
def wirePairs : Nat → List Nat → List (Nat × Nat)
  | _, [] => []
  | i, b :: rest => (if i = 0 then 1 else 0, b) :: wirePairs (i + 1) rest

/-- Running 8-bit wrapping checksum accumulated by `Mdb::send_data`. -/
def mdbChecksum (msg : List Nat) : Nat :=
  msg.foldl (fun c b => (c + b) % 256) 0

/-- `Mdb::send_data msg`: the full pair stream put on the wire, message bytes
followed by the trailing checksum pair `(0, checksum)`. -/
def sendDataWire (msg : List Nat) : List (Nat × Nat) :=
  wirePairs 0 msg ++ [(0, mdbChecksum msg)]

/-- Payload of a successfully decoded incoming transmission. -/
inductive RecvData
  | data (bytes : List Nat)
  | status (s : MDBStatus)
deriving DecidableEq, Repr

/-- Result of `Mdb::receive_response` (`Result<MDBResponse<..>, MDBError>`). -/
inductive RecvResult
  | ok (d : RecvData)
  | err (e : MDBError)
deriving DecidableEq, Repr

/-- Result of `Mdb::receive_response` together with whether the codec emitted
an ACK status frame on the way out. -/
structure RecvOutcome where
  result : RecvResult
  ackSent : Bool
deriving DecidableEq, Repr

/-- The extraction loop of `Mdb::receive_response` (`for (i, byte) in
scratch_buf[0..count]`): data bytes sit at odd indices, the final odd index is
the transmitted checksum and is not extracted; writing past the caller buffer
(`buf.len() <= i / 2`) aborts with a buffer overrun (modelled as `none`). -/
def extractAux (scratch : List Nat) (count bufLen : Nat) :
    List Nat → Nat → List Nat → Option (Nat × List Nat)
  | [], chk, out => some (chk, out)
  | i :: rest, chk, out =>
    if i % 2 = 1 ∧ i ≠ count - 1 then
      if bufLen ≤ i / 2 then none
      else
        extractAux scratch count bufLen rest ((chk + scratch.getD i 0) % 256)
          (out ++ [scratch.getD i 0])
    else extractAux scratch count bufLen rest chk out

/-- `Mdb::receive_response` on a raw pair stream `scratch` of length `count =
scratch.length` (the bytes delivered by one 9-bit UART read), with a caller
buffer of `bufLen` bytes. -/
def receive_response (scratch : List Nat) (bufLen : Nat) : RecvOutcome :=
  let count := scratch.length
  if count = 0 then ⟨.err .Timeout, false⟩
  else if count = 2 then
    if scratch.getD 1 0 = 0x00 then ⟨.ok (.status .ACK), false⟩
    else if scratch.getD 1 0 = 0xFF then ⟨.ok (.status .NAK), false⟩
    else ⟨.err .MalformedMessage, false⟩
  else
    if scratch.getD (count - 2) 0 = 0x01 then
      match extractAux scratch count bufLen (List.range count) 0 [] with
      | none => ⟨.err .BufferOverrun, false⟩
      | some (chk, out) =>
        if scratch.getD (count - 1) 0 = chk then ⟨.ok (.data out), true⟩
        else ⟨.err .WrongChecksum, false⟩
    else ⟨.err .MalformedMessage, false⟩

/-- The data bytes a multi-byte transmission carries: the bytes at odd indices
of the pair stream, the trailing checksum byte excluded. -/
def extractedData (scratch : List Nat) : List Nat :=
  ((List.range scratch.length).filter
      (fun i => i % 2 = 1 ∧ i ≠ scratch.length - 1)).map
    (fun i => scratch.getD i 0)

/-! ## Scripted bus

Peripheral-level code is verified against a scripted transport: the `k`-th
`receive_response` performed by the peripheral code yields the `k`-th entry of
the script (post-codec outcome), and each `send_data` logs its frame. -/

/-- One scripted outcome of an `Mdb::receive_response` call. -/
inductive BusReply
  | data (bytes : List Nat)
  | status (s : MDBStatus)
  | err (e : MDBError)
deriving DecidableEq, Repr

/-- Scripted bus: pending receive outcomes plus the log of sent data frames. -/
structure Bus where
  script : List BusReply
  log : List (List Nat)
deriving DecidableEq, Repr

/-- `Mdb::send_data` at the peripheral level: log the frame. -/
def Bus.send (b : Bus) (msg : List Nat) : Bus :=
  { b with log := b.log ++ [msg] }

/-- `Mdb::receive_response` at the peripheral level: pop the next scripted
outcome; an exhausted script reads as a zero-length read, i.e. `Timeout`. -/
def Bus.recv (b : Bus) : BusReply × Bus :=
  match b.script with
  | [] => (.err .Timeout, b)
  | r :: rest => (r, { b with script := rest })

/-- `Mdb::send_data_and_confirm_ack`: send the frame, then report `true` only
when the next receive outcome is an ACK status frame. -/
def Bus.confirmAck (b : Bus) (msg : List Nat) : Bool × Bus :=
  let b2 := b.send msg
  let r := b2.recv
  (match r.1 with
    | .status .ACK => true
    | _ => false,
   r.2)

/-! ## Coin acceptor data model (`coin_acceptor.rs`) -/

/-- `CoinAcceptorLevel`. -/
inductive CoinAcceptorLevel
  | Level2
  | Level3
deriving DecidableEq, Repr

/-- `CoinType`. -/
structure CoinType where
  unscaled_value : Nat
  routeable_to_tube : Bool
  tube_full : Bool
  num_coins : Nat
deriving DecidableEq, Repr

/-- `CoinAcceptorL3Features` (strings kept as raw reply bytes). -/
structure CoinAcceptorL3Features where
  manufacturer_code : List Nat
  serial_number : List Nat
  model : List Nat
  software_ver : List Nat
  alt_payout_cmd_supported : Bool
  ext_diag_cmd_supported : Bool
  controlled_fill_payout_cmd_supported : Bool
  ftl_cmd_supported : Bool
deriving DecidableEq, Repr

/-- `CoinAcceptor` (the 16 coin-type slots as a 16-element list). -/
structure CoinAcceptor where
  feature_level : CoinAcceptorLevel
  country_code : List Nat
  scaling_factor : Nat
  decimal_places : Nat
  coin_types : List (Option CoinType)
  l3_features : Option CoinAcceptorL3Features
deriving DecidableEq, Repr

/-- The `CoinType` built for the coin at raw-table position `index` of a SETUP
reply `buf`: `unscaled_value = buf[7+index] * buf[3]` (raw times scaling
factor, which cannot overflow `u16`), routeability is bit `index` of the
16-bit route mask `(buf[5] << 8) | buf[6]`. -/
def mkCoinType (buf : List Nat) (index : Nat) : CoinType :=
  { unscaled_value := buf.getD (7 + index) 0 * buf.getD 3 0
    routeable_to_tube :=
      ((((buf.getD 5 0) <<< 8) ||| buf.getD 6 0) &&& (1 <<< index)) != 0
    tube_full := false
    num_coins := 0 }

/-- The slot-population loop of `CoinAcceptor::init`: walk the 16 raw-value
bytes `buf[7..23]`; a nonzero byte at position `index` stores its `CoinType`
at slot `type_count` (the running count of nonzero bytes so far), not at slot
`index`. -/
def fillTypes (buf : List Nat) :
    List Nat → List (Option CoinType) × Nat → List (Option CoinType) × Nat
  | [], st => st
  | index :: rest, (types, cnt) =>
    if buf.getD (7 + index) 0 != 0 then
      fillTypes buf rest (types.set cnt (some (mkCoinType buf index)), cnt + 1)
    else
      fillTypes buf rest (types, cnt)

/-- The coin-type table produced from a SETUP reply `buf`. -/
def coinTypesOf (buf : List Nat) : List (Option CoinType) :=
  (fillTypes buf (List.range 16) (List.replicate 16 none, 0)).1

/-- Raw-table positions of the nonzero raw-value bytes of a SETUP reply, in
order. -/
def nzPositions (buf : List Nat) : List Nat :=
  (List.range 16).filter (fun i => buf.getD (7 + i) 0 != 0)

/-- The `CoinAcceptor` value constructed from a 23-byte SETUP reply. -/
def parseCoinAcceptor (buf : List Nat) : CoinAcceptor :=
  { feature_level :=
      if buf.getD 0 0 = 2 then .Level2
      else if buf.getD 0 0 = 3 then .Level3
      else .Level2
    country_code := [buf.getD 1 0, buf.getD 2 0]
    scaling_factor := buf.getD 3 0
    decimal_places := buf.getD 4 0
    coin_types := coinTypesOf buf
    l3_features := none }

/-- Parsing of the 33-byte L3 identification reply. -/
def parseL3Features (buf : List Nat) : CoinAcceptorL3Features :=
  { manufacturer_code := buf.take 3
    serial_number := (buf.drop 3).take 12
    model := (buf.drop 15).take 12
    software_ver := (buf.drop 27).take 2
    alt_payout_cmd_supported := (buf.getD 32 0 &&& 1) == 1
    ext_diag_cmd_supported := (buf.getD 32 0 &&& 2) == 2
    controlled_fill_payout_cmd_supported := (buf.getD 32 0 &&& 4) == 4
    ftl_cmd_supported := (buf.getD 32 0 &&& 8) == 8 }

/-- The tube-status refresh of `CoinAcceptor::update_coin_counts` applied to
the 16 slots, given the 18-byte TUBE_STATUS reply.  The source computes the
full-tube mask as `(buf[0] as u16) << 8 | (buf[1] as u16) << 8` — the second
shift duplicates the first instead of leaving `buf[1]` in the low byte. -/
def updateTypes (reply : List Nat) (types : List (Option CoinType)) :
    List (Option CoinType) :=
  let tube_full_status := (((reply.getD 0 0) <<< 8) ||| ((reply.getD 1 0) <<< 8))
  (List.range 16).map (fun i =>
    (types.getD i none).map (fun ct =>
      { ct with
        num_coins := reply.getD (i + 2) 0
        tube_full := (tube_full_status &&& (1 <<< i)) != 0 }))

/-- `CoinAcceptor::update_coin_counts`: send TUBE_STATUS (0x0A); only a
data reply of exactly 18 bytes updates the slots, every other outcome leaves
the state unchanged (the `Err` is discarded by every caller). -/
def updateCoinCounts (acc : CoinAcceptor) (b : Bus) : CoinAcceptor × Bus :=
  let b2 := b.send [0x0A]
  match b2.recv with
  | (.data bytes, b3) =>
    if bytes.length ≠ 18 then (acc, b3)
    else ({ acc with coin_types := updateTypes bytes acc.coin_types }, b3)
  | (_, b3) => (acc, b3)

/-- `CoinAcceptor::init`.  The RESET acknowledgement and the initial-POLL
reply are only logged; the only step whose failure yields `None` is the SETUP
exchange (no data reply, or a data reply that is not exactly 23 bytes). -/
def coinInit (bus : Bus) : Option CoinAcceptor × Bus :=
  let bus := (bus.confirmAck [0x08]).2
  let bus := bus.send [0x0B]
  let bus := (bus.recv).2
  let bus := bus.send [0x09]
  match bus.recv with
  | (.data bytes, bus) =>
    if bytes.length ≠ 23 then (none, bus)
    else
      let acc := parseCoinAcceptor bytes
      let st :=
        if acc.feature_level = .Level3 then
          let bus := bus.send [0x0F, 0x00]
          match bus.recv with
          | (.data identBytes, bus) =>
            if identBytes.length ≠ 33 then (acc, bus)
            else
              let l3 := parseL3Features identBytes
              let mask :=
                (if l3.alt_payout_cmd_supported then 1 else 0) |||
                (if l3.ext_diag_cmd_supported then 2 else 0)
              let bus := (bus.confirmAck [0x0F, 0x01, 0x00, 0x00, 0x00, mask]).2
              ({ acc with l3_features := some l3 }, bus)
          | (_, bus) => (acc, bus)
        else (acc, bus)
      let u := updateCoinCounts st.1 st.2
      (some u.1, u.2)
  | (_, bus) => (none, bus)

/-! ## Coin payout engines -/

/-- The inner dispense loop of `CoinAcceptor::payout_level2` for one slot.
Faithful to the source: on an acknowledged DISPENSE the amount credited is
`unscaled_value * num_to_pay` (not `num_to_dispense`) while the remaining
count drops only by `num_to_dispense`; an unacknowledged DISPENSE repeats
without progress (the source loops forever, modelled by fuel). -/
def dispenseLoop (value i : Nat) :
    Nat → Nat → Nat → Bus → Nat × Bus
  | 0, _, paid, bus => (paid, bus)
  | fuel + 1, ntp, paid, bus =>
    if ntp = 0 then (paid, bus)
    else
      let ntd := if ntp > 16 then 16 else ntp
      let cmdByte := w8 (i ||| (ntp <<< 4))
      let ca := bus.confirmAck [0x0D, cmdByte]
      if ca.1 then
        dispenseLoop value i fuel (ntp - ntd) (w16 (paid + w16 (value * ntp))) ca.2
      else
        dispenseLoop value i fuel ntp paid ca.2

/-- The per-slot loop of `CoinAcceptor::payout_level2`, walking the
`(index, slot)` pairs highest index first.  The `Bool` component records that
every division performed had a nonzero divisor (`(credit - paid) /
unscaled_value` for each occupied slot visited). -/
def payoutL2Slots (credit fuel : Nat) :
    List (Nat × Option CoinType) → Nat → Bool → Bus → Nat × Bool × Bus
  | [], paid, divOk, bus => (paid, divOk, bus)
  | (i, c) :: rest, paid, divOk, bus =>
    match c with
    | some coin =>
      let divOk2 := divOk && (coin.unscaled_value != 0)
      let ntp0 := w8 (w16 (credit + 65536 - paid) / coin.unscaled_value)
      let ntp := if ntp0 > coin.num_coins then coin.num_coins else ntp0
      let dl := dispenseLoop coin.unscaled_value i fuel ntp paid bus
      if dl.1 = credit then (dl.1, divOk2, dl.2)
      else payoutL2Slots credit fuel rest dl.1 divOk2 dl.2
    | none =>
      if paid = credit then (paid, divOk, bus)
      else payoutL2Slots credit fuel rest paid divOk bus

/-- `CoinAcceptor::payout_level2` (result, divisor-nonzero flag, bus). -/
def payout_level2 (acc : CoinAcceptor) (credit fuel : Nat) (bus : Bus) :
    Nat × Bool × Bus :=
  payoutL2Slots credit fuel
    (((List.range 16).map (fun i => (i, acc.coin_types.getD i none))).reverse)
    0 true bus

/-- The payout-value poll loop of `CoinAcceptor::payout_level3`: poll with
`[0x0F, 0x04]` until an ACK status arrives (the source loops forever,
modelled by fuel). -/
def payoutPollLoop : Nat → Bus → Bus
  | 0, bus => bus
  | fuel + 1, bus =>
    let bus2 := bus.send [0x0F, 0x04]
    match bus2.recv with
    | (.status .ACK, bus3) => bus3
    | (_, bus3) => payoutPollLoop fuel bus3

/-- The payout-status summation of `CoinAcceptor::payout_level3`: for each
reply byte, add `unscaled_value * byte` for the matching occupied slot
(replies longer than the 16-byte receive buffer are rejected by the codec
before reaching this loop). -/
def sumPaid (types : List (Option CoinType)) (bytes : List Nat) : Nat :=
  (List.range bytes.length).foldl (fun paid i =>
    match types.getD i none with
    | some ct => w16 (paid + w16 (ct.unscaled_value * bytes.getD i 0))
    | none => paid) 0

/-- `CoinAcceptor::payout_level3` (result, divisor-nonzero flag, bus).  The
only division is `credit / scaling_factor`. -/
def payout_level3 (acc : CoinAcceptor) (credit fuel : Nat) (bus : Bus) :
    Nat × Bool × Bus :=
  let divOk := acc.scaling_factor != 0
  let credit_scaled := credit / acc.scaling_factor
  if credit_scaled > 255 then (0, divOk, bus)
  else
    let bus := (bus.confirmAck [0x0F, 0x02, credit_scaled]).2
    let bus := payoutPollLoop fuel bus
    let bus := bus.send [0x0F, 0x03]
    let r := bus.recv
    let amount_paid :=
      match r.1 with
      | .data bytes => sumPaid acc.coin_types bytes
      | _ => 0
    (amount_paid, divOk, r.2)

/-- `CoinAcceptor::payout`: dispatch on the L3 alternative-payout capability,
then refresh the coin counts.  Returns (paid, divisor-nonzero flag, updated
acceptor, bus). -/
def payout (acc : CoinAcceptor) (credit fuel : Nat) (bus : Bus) :
    Nat × Bool × CoinAcceptor × Bus :=
  let use_l3_payout :=
    match acc.l3_features with
    | some f => f.alt_payout_cmd_supported
    | none => false
  let r :=
    if use_l3_payout then payout_level3 acc credit fuel bus
    else payout_level2 acc credit fuel bus
  let u := updateCoinCounts acc r.2.2
  (r.1, r.2.1, u.1, u.2)

/-! ## Cashless device data model (`cashless_device.rs`) -/

/-- `CashlessDeviceFeatureLevel`. -/
inductive CashlessDeviceFeatureLevel
  | Level1
  | Level2
  | Level3
deriving DecidableEq, Repr

/-- `BeginSessionAdvancedData`. -/
structure BeginSessionAdvancedData where
  funds_available : Nat
  payment_media_id : Nat
  payment_type : Nat
  payment_data : Nat
deriving DecidableEq, Repr

/-- `MalfunctionCode`. -/
inductive MalfunctionCode
  | PaymentMedia
  | InvalidPaymentMedia
  | Tamper
  | MfrErr1
  | CommsErr2
  | RequiresService
  | MfrErr2
  | ReaderFailure3
  | CommsErr3
  | Jammed
  | MfrErr
  | RefundErr
  | Unassigned
deriving DecidableEq, Repr

/-- Cashless `PollEvent`. -/
inductive PollEvent
  | JustReset
  | ReaderConfigData
  | BeginSessionLevelBasic (funds : Nat)
  | BeginSessionLevelAdvanced (d : BeginSessionAdvancedData)
  | SessionCancelRequest
  | VendApproved (amount : Nat)
  | VendDenied
  | EndSession
  | Cancelled
  | PeripheralId
  | Malfunction (c : MalfunctionCode)
  | CmdOutOfSequence
  | RevalueApproved
  | RevalueDenied
  | RevalueLimitAmount (amount : Nat)
  | UserFileData
  | TimeDateRequest
  | DataEntryRequest
deriving DecidableEq, Repr

/-- `CashlessDevice::poll_response_length`: sub-event length keyed by its first
byte and the device feature level; unknown bytes have no length (`Err`). -/
def poll_response_length (level : CashlessDeviceFeatureLevel) (b : Nat) :
    Option Nat :=
  if b = 0x00 then some 1
  else if b = 0x01 then some 8
  else if b = 0x02 then some 2
  else if b = 0x03 then
    (match level with | .Level1 => some 3 | _ => some 10)
  else if b = 0x04 then some 1
  else if b = 0x05 then some 3
  else if b = 0x06 then some 1
  else if b = 0x07 then some 1
  else if b = 0x08 then some 1
  else if b = 0x09 then
    (match level with | .Level3 => some 34 | _ => some 30)
  else if b = 0x0A then some 2
  else if b = 0x0B then
    (match level with | .Level1 => some 1 | _ => some 2)
  else if b = 0x0D then some 1
  else if b = 0x0E then some 1
  else if b = 0x0F then some 3
  else if b = 0x11 then some 1
  else if b = 0x12 then some 2
  else none

/-- The malfunction-code table of `PollEvent::try_from` (second byte). -/
def malfunctionOf (b : Nat) : MalfunctionCode :=
  if b = 0x00 then .PaymentMedia
  else if b = 0x01 then .InvalidPaymentMedia
  else if b = 0x02 then .Tamper
  else if b = 0x03 then .MfrErr1
  else if b = 0x04 then .CommsErr2
  else if b = 0x05 then .RequiresService
  else if b = 0x07 then .MfrErr2
  else if b = 0x08 then .ReaderFailure3
  else if b = 0x09 then .CommsErr3
  else if b = 0x0A then .Jammed
  else if b = 0x0B then .MfrErr
  else if b = 0x0C then .RefundErr
  else .Unassigned

/-- `PollEvent::try_from` on a sub-event slice.  `Err` (either variant of
`PollError`) is collapsed to `none`; both are handled identically by the
caller.  Note bytes 0x02, 0x0E and 0x0F have table lengths but no successful
parse. -/
def PollEvent.tryFrom (bytes : List Nat) : Option PollEvent :=
  let b0 := bytes.getD 0 0
  if b0 = 0x00 then some .JustReset
  else if b0 = 0x01 then some .ReaderConfigData
  else if b0 = 0x02 then none
  else if b0 = 0x03 then
    (if bytes.length = 3 then
      some (.BeginSessionLevelBasic (bytes.getD 2 0 + 256 * bytes.getD 1 0))
    else if bytes.length = 10 then
      some (.BeginSessionLevelAdvanced
        { funds_available := bytes.getD 2 0 + 256 * bytes.getD 1 0
          payment_media_id :=
            bytes.getD 3 0 + 256 * bytes.getD 4 0 + 65536 * bytes.getD 5 0 +
              16777216 * bytes.getD 6 0
          payment_type := bytes.getD 7 0
          payment_data := bytes.getD 9 0 + 256 * bytes.getD 8 0 })
    else none)
  else if b0 = 0x04 then some .SessionCancelRequest
  else if b0 = 0x05 then
    (if bytes.length = 3 then
      some (.VendApproved (bytes.getD 2 0 + 256 * bytes.getD 1 0))
    else none)
  else if b0 = 0x06 then some .VendDenied
  else if b0 = 0x07 then some .EndSession
  else if b0 = 0x08 then some .Cancelled
  else if b0 = 0x09 then some .PeripheralId
  else if b0 = 0x0A then
    (if bytes.length = 2 then some (.Malfunction (malfunctionOf (bytes.getD 1 0)))
    else none)
  else if b0 = 0x0B then some .CmdOutOfSequence
  else if b0 = 0x0D then some .RevalueApproved
  else if b0 = 0x10 then some .UserFileData
  else if b0 = 0x11 then some .TimeDateRequest
  else if b0 = 0x12 then some .DataEntryRequest
  else none

/-- The tokenization loop of `CashlessDevice::poll` over a data frame of `len`
bytes sitting in the 64-byte receive buffer `buf`.  The two Rust panic sites
are modelled by `.error ()`: the slice `buf[index .. index + event_len]` when
`index + event_len > 64`, and the store `events[event_count]` when
`event_count ≥ 36`.  An unknown first byte abandons the rest of the frame. -/
def pollLoop (level : CashlessDeviceFeatureLevel) (buf : List Nat) (len : Nat) :
    Nat → Nat → List (Option PollEvent) → Nat →
      Except Unit (List (Option PollEvent))
  | 0, _, events, _ => .ok events
  | fuel + 1, index, events, count =>
    if index < len then
      match poll_response_length level (buf.getD index 0) with
      | some event_len =>
        if index + event_len ≤ 64 then
          match PollEvent.tryFrom ((buf.drop index).take event_len) with
          | some ev =>
            if count < 36 then
              pollLoop level buf len fuel (index + event_len)
                (events.set count (some ev)) (count + 1)
            else .error ()
          | none => pollLoop level buf len fuel (index + event_len) events count
        else .error ()
      | none => .ok events
    else .ok events

/-- `CashlessDevice::poll`, data-frame branch: tokenize the frame into the
36-slot event array (or hit a panic site, `.error ()`). -/
def cashlessPoll (level : CashlessDeviceFeatureLevel) (buf : List Nat)
    (len : Nat) : Except Unit (List (Option PollEvent)) :=
  pollLoop level buf len len 0 (List.replicate 36 none) 0

/-- Splitting of a byte stream into sub-events exactly as the sizing table
prescribes: `some chunks` when the stream is a concatenation of complete
table-sized sub-events. -/
def splitPoll (level : CashlessDeviceFeatureLevel) :
    Nat → List Nat → Option (List (List Nat))
  | _, [] => some []
  | 0, _ :: _ => none
  | fuel + 1, b :: rest =>
    match poll_response_length level b with
    | some event_len =>
      if event_len ≤ (b :: rest).length then
        (splitPoll level fuel ((b :: rest).drop event_len)).map
          (fun cs => (b :: rest).take event_len :: cs)
      else none
    | none => none

/-- `splitPoll` with enough fuel for its own input. -/
def splitPollEvents (level : CashlessDeviceFeatureLevel) (bytes : List Nat) :
    Option (List (List Nat)) :=
  splitPoll level bytes.length bytes

/-- Store the elements of `l` at consecutive positions `c, c+1, …` of an
optional-slot array (how both drivers fill their fixed event arrays). -/
def setSeq {α : Type} : List (Option α) → Nat → List α → List (Option α)
  | types, _, [] => types
  | types, c, a :: as => setSeq (types.set c (some a)) (c + 1) as

/-- `CashlessDevice`. -/
structure CashlessDevice where
  feature_level : CashlessDeviceFeatureLevel
  country_code : Nat
  scale_factor : Nat
  decimal_places : Nat
  max_response_time : Nat
  can_restore_funds : Bool
  multivend_capable : Bool
  has_display : Bool
  supports_cash_sale_cmd : Bool
  manufacturer_code : List Nat
  serial_number : List Nat
  model_number : List Nat
  software_version : List Nat
  supports_ftl : Bool
  monetary_format_32_bit : Bool
  supports_multicurrency : Bool
  supports_negative_vend : Bool
  supports_data_entry : Bool
  supports_always_idle : Bool
  supports_remote_vend : Bool
  supports_basket : Bool
  supports_coupon : Bool
  supports_ask_begin_session : Bool
  supports_enhanced_item_number_information : Bool
deriving DecidableEq, Repr

/-- `CashlessDevice::init`.  `None` is produced only by: an initial-poll data
reply whose first byte is not 0x00, a setup exchange without an 8-byte data
reply, or an expansion exchange without a data reply of the level-appropriate
length (34 bytes for a level-3 device, 30 otherwise).  The RESET, price and
feature-enable acknowledgements are ignored. -/
def cashlessInit (bus : Bus) : Option CashlessDevice × Bus :=
  let bus := (bus.confirmAck [0x10]).2
  let bus := bus.send [0x12]
  let rr := bus.recv
  let r2 := rr.1
  let bus := rr.2
  let pollBad :=
    match r2 with
    | .data bytes => bytes.getD 0 0 != 0
    | _ => false
  if pollBad then (none, bus)
  else
    let bus := bus.send [0x11, 0x00, 0x03, 0x00, 0x00, 0x00]
    match bus.recv with
    | (.data setup, bus) =>
      if setup.length ≠ 8 then (none, bus)
      else
        let feature_level : CashlessDeviceFeatureLevel :=
          if setup.getD 1 0 = 2 then .Level2
          else if setup.getD 1 0 = 3 then .Level3
          else .Level1
        let bus := (bus.confirmAck [0x11, 0x01, 0xFF, 0xFF, 0x00, 0x00]).2
        let bus := bus.send
          ([0x17, 0x00, 68, 77, 80] ++ List.replicate 11 48 ++ [49] ++
            List.replicate 11 48 ++ [49] ++ [48, 49])
        match bus.recv with
        | (.data expd, bus) =>
          if (match feature_level with
              | .Level3 => expd.length != 34
              | _ => expd.length != 30) then (none, bus)
          else
            let isL3 := feature_level = CashlessDeviceFeatureLevel.Level3
            let dev : CashlessDevice :=
              { feature_level := feature_level
                country_code := ((setup.getD 2 0) <<< 8) ||| setup.getD 3 0
                scale_factor := setup.getD 4 0
                decimal_places := setup.getD 5 0
                max_response_time := setup.getD 6 0
                can_restore_funds := (setup.getD 7 0 &&& 1) != 0
                multivend_capable := (setup.getD 7 0 &&& 2) != 0
                has_display := (setup.getD 7 0 &&& 4) != 0
                supports_cash_sale_cmd := (setup.getD 7 0 &&& 8) != 0
                manufacturer_code := (expd.drop 1).take 3
                serial_number := (expd.drop 4).take 12
                model_number := (expd.drop 16).take 12
                software_version := (expd.drop 28).take 2
                supports_ftl := isL3 && ((expd.getD 33 0 &&& 0x01) != 0)
                monetary_format_32_bit := isL3 && ((expd.getD 33 0 &&& 0x02) != 0)
                supports_multicurrency := isL3 && ((expd.getD 33 0 &&& 0x04) != 0)
                supports_negative_vend := isL3 && ((expd.getD 33 0 &&& 0x08) != 0)
                supports_data_entry := isL3 && ((expd.getD 33 0 &&& 0x10) != 0)
                supports_always_idle := isL3 && ((expd.getD 33 0 &&& 0x20) != 0)
                supports_remote_vend := isL3 && ((expd.getD 33 0 &&& 0x40) != 0)
                supports_basket := isL3 && ((expd.getD 33 0 &&& 0x80) != 0)
                supports_coupon := isL3 && ((expd.getD 32 0 &&& 0x01) != 0)
                supports_ask_begin_session := isL3 && ((expd.getD 32 0 &&& 0x02) != 0)
                supports_enhanced_item_number_information :=
                  isL3 && ((expd.getD 32 0 &&& 0x04) != 0) }
            let bus := (bus.confirmAck [0x17, 0x04, 0x00, 0x00, 0x00, 0x20]).2
            (some dev, bus)
        | (_, bus) => (none, bus)
    | (_, bus) => (none, bus)

/-- `CashlessDevice::start_transaction`: one VEND REQUEST frame containing the
amount big-endian and the two item-address bytes, acknowledged or not.  No
polling and no session teardown happen here. -/
def start_transaction (bus : Bus) (unscaled_amount : Nat)
    (address : List Nat) : Bool × Bus :=
  bus.confirmAck
    [0x13, 0x00, w16 unscaled_amount / 256, w8 unscaled_amount,
      address.getD 0 0, address.getD 1 0]

/-- `CashlessDevice::end_session`: one VEND SESSION COMPLETE frame. -/
def end_session (bus : Bus) : Bool × Bus :=
  bus.confirmAck [0x13, 0x04]

/-! ## Characterizations used by the handshake claims -/

/-- The coin SETUP outcomes `CoinAcceptor::init` accepts: a data reply of
exactly 23 bytes. -/
def coinSetupAccepted : BusReply → Bool
  | .data bytes => bytes.length == 23
  | _ => false

/-- Initial cashless POLL outcomes that do not abort `CashlessDevice::init`:
anything except a data reply whose first byte is nonzero. -/
def cashlessPollOk : BusReply → Bool
  | .data bytes => bytes.getD 0 0 == 0
  | _ => true

/-- The cashless SETUP outcomes `CashlessDevice::init` accepts. -/
def cashlessSetupOk : BusReply → Bool
  | .data bytes => bytes.length == 8
  | _ => false

/-- The expansion-reply outcomes `CashlessDevice::init` accepts, given the
setup reply (whose second byte fixes the feature level). -/
def cashlessExpansionOk : BusReply → BusReply → Bool
  | .data b3, .data b5 =>
    if b3.getD 1 0 == 3 then b5.length == 34 else b5.length == 30
  | _, _ => false

/-- Success of the whole cashless handshake in terms of the three decisive
scripted outcomes. -/
def cashlessInitOk (r2 r3 r5 : BusReply) : Bool :=
  cashlessPollOk r2 && cashlessSetupOk r3 && cashlessExpansionOk r3 r5

/-! ## Helper lemmas -/

lemma wirePairs_map_snd (msg : List Nat) :
    ∀ i, (wirePairs i msg).map Prod.snd = msg := by
  induction msg with
  | nil => intro i; rfl
  | cons b rest ih => intro i; simp [wirePairs, ih]

lemma wirePairs_length (msg : List Nat) :
    ∀ i, (wirePairs i msg).length = msg.length := by
  induction msg with
  | nil => intro i; rfl
  | cons b rest ih => intro i; simp [wirePairs, ih]

lemma wirePairs_getD_fst (msg : List Nat) :
    ∀ i j, j < msg.length →
      ((wirePairs i msg).getD j (0, 0)).1 = if i = 0 ∧ j = 0 then 1 else 0 := by
  induction msg with
  | nil => intro i j h; simp at h
  | cons b rest ih =>
    intro i j h
    cases j with
    | zero => simp [wirePairs]
    | succ j =>
      have h' : j < rest.length := by simpa using h
      have hih := ih (i + 1) j h'
      simp only [wirePairs, List.getD_cons_succ, hih]
      simp

lemma checksum_foldl (msg : List Nat) :
    ∀ c, c < 256 →
      msg.foldl (fun acc b => (acc + b) % 256) c = (c + msg.sum) % 256 := by
  induction msg with
  | nil => intro c hc; simp [Nat.mod_eq_of_lt hc]
  | cons b rest ih =>
    intro c hc
    simp only [List.foldl_cons, List.sum_cons]
    rw [ih _ (Nat.mod_lt _ (by omega))]
    rw [Nat.mod_add_mod]
    omega

lemma mdbChecksum_eq (msg : List Nat) : mdbChecksum msg = msg.sum % 256 := by
  simpa [mdbChecksum] using checksum_foldl msg 0 (by omega)

/-! ## Claim theorems -/

/-- Claim C7: `Mdb::send_data` puts `[mode_flag, data_byte]` pairs on the wire
whose data bytes are the message followed by the sum-mod-256 checksum; the
byte at wire position 0 (the first message byte, when the message is
nonempty) carries mode flag 1 and every other byte, the trailing checksum
included, carries mode flag 0. -/
theorem spec_c7 (msg : List Nat) :
    (sendDataWire msg).map Prod.snd = msg ++ [msg.sum % 256]
    ∧ (msg ≠ [] → ((sendDataWire msg).getD 0 ((0, 0) : Nat × Nat)).1 = 1)
    ∧ (∀ j, 1 ≤ j → ((sendDataWire msg).getD j ((0, 0) : Nat × Nat)).1 = 0) := by
  refine ⟨?_, ?_, ?_⟩
  · simp [sendDataWire, wirePairs_map_snd, mdbChecksum_eq]
  · intro h
    have h0 : 0 < msg.length := List.length_pos.mpr h
    rw [sendDataWire, List.getD_append _ _ _ 0 (by rw [wirePairs_length]; exact h0)]
    rw [wirePairs_getD_fst msg 0 0 h0]
    simp
  · intro j hj
    by_cases hlt : j < msg.length
    · rw [sendDataWire, List.getD_append _ _ _ j (by rw [wirePairs_length]; exact hlt)]
      rw [wirePairs_getD_fst msg 0 j hlt]
      have hj0 : j ≠ 0 := by omega
      simp [hj0]
    · have hge : (wirePairs 0 msg).length ≤ j := by
        rw [wirePairs_length]; omega
      rw [sendDataWire, List.getD_append_right _ _ _ j hge]
      rw [wirePairs_length]
      rcases hcase : j - msg.length with _ | k <;> simp [hcase]

/-- Witness for C7 at the one-byte RESET command. -/
theorem spec_c7_witness :
    ([0x08] ≠ ([] : List Nat))
    ∧ ((sendDataWire [0x08]).getD 0 ((0, 0) : Nat × Nat)).1 = 1 :=
  ⟨by decide, (spec_c7 [0x08]).2.1 (by decide)⟩

/-- Claim C1 (counterexample): `start_transaction(300, [0,1])` against a
device that answers NAK (a non-approval outcome) sends exactly the one VEND
REQUEST frame: no POLL command (`[0x12]`) is ever sent — the claimed
up-to-150-poll loop does not exist — and no `end_session` frame
(`[0x13, 0x04]`) is sent either. -/
theorem spec_c1_counterexample :
    (start_transaction ⟨[.status .NAK], []⟩ 300 [0, 1]).1 = false
    ∧ (start_transaction ⟨[.status .NAK], []⟩ 300 [0, 1]).2.log =
        [[0x13, 0x00, 0x01, 0x2C, 0x00, 0x01]]
    ∧ [0x13, 0x04] ∉ (start_transaction ⟨[.status .NAK], []⟩ 300 [0, 1]).2.log
    ∧ [0x12] ∉ (start_transaction ⟨[.status .NAK], []⟩ 300 [0, 1]).2.log :=
  ⟨rfl, rfl, by decide, by decide⟩

/-- Claim C1 (amended): `start_transaction(amount, addr)` sends the single
frame `[0x13, 0x00, amt_hi, amt_lo, addr_hi, addr_lo]` (amount big-endian)
and returns true exactly when the device answers with an ACK status frame; it
performs no polling and never invokes `end_session`. -/
theorem spec_c1 (unscaled_amount a0 a1 : Nat) (script : List BusReply) :
    (start_transaction ⟨script, []⟩ unscaled_amount [a0, a1]).2.log =
      [[0x13, 0x00, w16 unscaled_amount / 256, w8 unscaled_amount, a0, a1]]
    ∧ ((start_transaction ⟨script, []⟩ unscaled_amount [a0, a1]).1 = true ↔
        script.head? = some (.status .ACK)) := by
  rcases script with _ | ⟨r, rest⟩
  · constructor <;>
      simp [start_transaction, Bus.confirmAck, Bus.send, Bus.recv]
  · rcases r with bytes | s | e
    · constructor <;>
        simp [start_transaction, Bus.confirmAck, Bus.send, Bus.recv]
    · cases s <;> (constructor <;>
        simp [start_transaction, Bus.confirmAck, Bus.send, Bus.recv])
    · constructor <;>
        simp [start_transaction, Bus.confirmAck, Bus.send, Bus.recv]

/-- Claim C5 (code defect): with one coin slot of unscaled value 10 holding 20
coins, credit 200 and every DISPENSE acknowledged, `payout` reports 240
paid — more than the requested credit.  `payout_level2` credits
`unscaled_value * num_to_pay` on every acknowledged batch while decrementing
only by `num_to_dispense`, double-counting whenever a slot owes more than 16
coins. -/
theorem spec_c5 :
    (payout
        { feature_level := .Level2, country_code := [0, 0], scaling_factor := 1,
          decimal_places := 0,
          coin_types := some ⟨10, false, false, 20⟩ :: List.replicate 15 none,
          l3_features := none }
        200 50 ⟨[.status .ACK, .status .ACK, .err .Timeout], []⟩).1 = 240
    ∧ ¬(240 ≤ 200) :=
  ⟨rfl, by decide⟩

/-- Claim C6 (code defect): after `update_coin_counts` sees the 18-byte reply
`[0x00, 0x01, 7, …]`, occupied slot 0 gets `num_coins = 7` (reply byte 2, as
claimed) but `tube_full = false`, although bit 0 of the claimed mask
`(b0 << 8) | b1 = 0x0001` is set: the source computes the mask as
`(b0 << 8) | (b1 << 8)`, dropping the low byte. -/
theorem spec_c6 :
    (updateTypes ([0, 1] ++ List.replicate 16 7)
        (some ⟨10, false, false, 5⟩ :: List.replicate 15 none)).getD 0 none =
      some ⟨10, false, false, 7⟩
    ∧ ((((0 <<< 8) ||| (1 : Nat)) &&& (1 <<< 0)) ≠ 0) :=
  ⟨rfl, by decide⟩

/-- Claim C2 (counterexample): with SETUP raw coin bytes `[0, 5, 0, …]` slot 0
is populated (from raw byte 1, the table is filled compactly) although raw
byte 0 is zero: occupancy of slot `i` is not equivalent to raw byte `i` being
nonzero. -/
theorem spec_c2_counterexample :
    ¬((((coinTypesOf ([2, 0, 0, 1, 0, 0, 0] ++ [0, 5] ++
          List.replicate 14 0)).getD 0 none).isSome = true) ↔
      (([2, 0, 0, 1, 0, 0, 0] ++ [0, 5] ++ List.replicate 14 0).getD 7 0 ≠ 0)) := by
  decide

/-- Claim C4 (counterexample): the 2-byte frame `[0x0E, 0x07]` splits exactly
per the sizing table into two sub-events, yet `poll` yields a single event
(`EndSession`, from the second sub-event): byte 0x0E (RevalueDenied) has a
table length but no successful `try_from` parse, so it is skipped without
yielding an event. -/
theorem spec_c4_counterexample :
    splitPollEvents .Level1 (([0x0E, 0x07] ++ List.replicate 62 0).take 2) =
      some [[0x0E], [0x07]]
    ∧ cashlessPoll .Level1 ([0x0E, 0x07] ++ List.replicate 62 0) 2 =
        .ok (some .EndSession :: List.replicate 35 none) :=
  ⟨rfl, rfl⟩

/-- Claim C8 (counterexample): a coin-acceptor handshake whose RESET is
answered with NAK (not ACKed) still returns `Some`: the source ignores the
result of the RESET exchange. -/
theorem spec_c8_counterexample :
    (coinInit ⟨[.status .NAK, .data [0x0B],
        .data ([2, 170, 187, 1, 2, 0, 0] ++ [1] ++ List.replicate 15 0),
        .data (List.replicate 18 0)], []⟩).1.isSome = true :=
  rfl

/-- Claim C9 (counterexample): a 32-byte poll frame consisting of 31
one-byte events followed by a PeripheralId header (0x09) at index 31, parsed
at feature level 3 (event length 34), drives the tokenizer to slice
`buf[31..65]` out of the 64-byte buffer: the parse hits the panic site. -/
theorem spec_c9_counterexample :
    cashlessPoll .Level3 (List.replicate 31 0 ++ [9] ++ List.replicate 32 0) 32 =
      .error () :=
  rfl

lemma extractAux_ok (scratch : List Nat) (count bufLen : Nat) :
    ∀ (idxs : List Nat) (chk : Nat) (out : List Nat), chk < 256 →
      (∀ i ∈ idxs, i % 2 = 1 → i ≠ count - 1 → i / 2 < bufLen) →
      extractAux scratch count bufLen idxs chk out =
        some ((chk + ((idxs.filter (fun i => i % 2 = 1 ∧ i ≠ count - 1)).map
              (fun i => scratch.getD i 0)).sum) % 256,
          out ++ (idxs.filter (fun i => i % 2 = 1 ∧ i ≠ count - 1)).map
            (fun i => scratch.getD i 0)) := by
  intro idxs
  induction idxs with
  | nil =>
    intro chk out hc h
    simp [extractAux, Nat.mod_eq_of_lt hc]
  | cons i rest ih =>
    intro chk out hc h
    by_cases hi : i % 2 = 1 ∧ i ≠ count - 1
    · have hlt : i / 2 < bufLen := h i (by simp) hi.1 hi.2
      have hrec := ih ((chk + scratch.getD i 0) % 256) (out ++ [scratch.getD i 0])
        (Nat.mod_lt _ (by omega)) (fun j hj => h j (by simp [hj]))
      simp only [extractAux]
      rw [if_pos hi, if_neg (by omega : ¬ bufLen ≤ i / 2), hrec]
      simp [List.filter_cons, hi, Nat.mod_add_mod, Nat.add_assoc]
    · have hrec := ih chk out hc (fun j hj => h j (by simp [hj]))
      simp only [extractAux]
      rw [if_neg hi, hrec]
      simp [List.filter_cons, hi]

/-- Claim C3: on a multi-byte transmission made of `[mode, data]` pairs whose
final pair carries the end-of-frame mode bit, and with a caller buffer large
enough for the payload, `receive_response` sends an ACK and returns the
extracted data exactly when the 8-bit wrapping sum of the data bytes equals
the transmitted checksum byte; otherwise it returns `WrongChecksum` and sends
no ACK. -/
theorem spec_c3 (scratch : List Nat) (bufLen : Nat)
    (h2 : 2 < scratch.length) (hev : scratch.length % 2 = 0)
    (hend : scratch.getD (scratch.length - 2) 0 = 1)
    (hbuf : scratch.length / 2 - 1 ≤ bufLen) :
    ((extractedData scratch).sum % 256 = scratch.getD (scratch.length - 1) 0 →
      receive_response scratch bufLen =
        ⟨.ok (.data (extractedData scratch)), true⟩)
    ∧ ((extractedData scratch).sum % 256 ≠ scratch.getD (scratch.length - 1) 0 →
      receive_response scratch bufLen = ⟨.err .WrongChecksum, false⟩) := by
  have hex := extractAux_ok scratch scratch.length bufLen
    (List.range scratch.length) 0 [] (by omega)
    (by
      intro i hi hodd hne
      have hilt : i < scratch.length := List.mem_range.mp hi
      omega)
  simp only [Nat.zero_add, List.nil_append] at hex
  have hkey : receive_response scratch bufLen =
      (if scratch.getD (scratch.length - 1) 0 = (extractedData scratch).sum % 256
       then ⟨.ok (.data (extractedData scratch)), true⟩
       else ⟨.err .WrongChecksum, false⟩) := by
    simp only [receive_response]
    rw [if_neg (show ¬ scratch.length = 0 by omega),
        if_neg (show ¬ scratch.length = 2 by omega),
        if_pos hend, hex]
    rfl
  constructor
  · intro hck
    rw [hkey, if_pos hck.symm]
  · intro hck
    rw [hkey, if_neg (fun hh => hck hh.symm)]

/-- Witness for C3: the 4-byte pair stream `[1, 0x0B, 1, 0x0B]` (one data
byte 0x0B, end-of-frame bit set, correct checksum) is ACKed and decoded. -/
theorem spec_c3_witness :
    2 < ([1, 11, 1, 11] : List Nat).length
    ∧ receive_response [1, 11, 1, 11] 1 = ⟨.ok (.data [11]), true⟩ :=
  ⟨by decide,
    (spec_c3 [1, 11, 1, 11] 1 (by decide) (by decide) (by decide)
      (by decide)).1 (by decide)⟩

/-- Claim C8 (amended): `CoinAcceptor::init` returns `Some` exactly when the
SETUP exchange yields a 23-byte data reply — the RESET acknowledgement, the
initial-poll reply (even a wrong one), the L3-identification length and the
tube-status refresh never cause `None`.  `CashlessDevice::init` returns
`Some` exactly when the initial poll does not yield a data reply with nonzero
first byte, the setup exchange yields an 8-byte data reply, and the expansion
exchange yields a data reply of the level-appropriate length (34 bytes when
setup byte 1 is 3, 30 otherwise) — its RESET, price and feature-enable
acknowledgements are likewise ignored. -/
theorem spec_c8 (r1 r2 r3 r4 r5 : BusReply) (rest : List BusReply) :
    ((coinInit ⟨r1 :: r2 :: r3 :: r4 :: r5 :: rest, []⟩).1.isSome =
      coinSetupAccepted r3)
    ∧ ((cashlessInit ⟨r1 :: r2 :: r3 :: r4 :: r5 :: rest, []⟩).1.isSome =
      cashlessInitOk r2 r3 r5) := by
  constructor
  · rcases r3 with b3 | s3 | e3
    · by_cases hl : b3.length = 23 <;>
        simp [coinInit, Bus.confirmAck, Bus.send, Bus.recv, coinSetupAccepted, hl]
    · simp [coinInit, Bus.confirmAck, Bus.send, Bus.recv, coinSetupAccepted]
    · simp [coinInit, Bus.confirmAck, Bus.send, Bus.recv, coinSetupAccepted]
  · rcases r2 with b2 | s2 | e2 <;> rcases r3 with b3 | s3 | e3 <;>
      rcases r5 with b5 | s5 | e5 <;>
      simp [cashlessInit, Bus.confirmAck, Bus.send, Bus.recv, cashlessInitOk,
        cashlessPollOk, cashlessSetupOk, cashlessExpansionOk] <;>
      (repeat' split) <;> simp_all

lemma setSeq_cons {α : Type} :
    ∀ (l : List α) (x : Option α) (types : List (Option α)) (c : Nat),
      setSeq (x :: types) (c + 1) l = x :: setSeq types c l := by
  intro l
  induction l with
  | nil => intro x types c; rfl
  | cons a as ih =>
    intro x types c
    simp only [setSeq, List.set_cons_succ]
    exact ih x (types.set c (some a)) (c + 1)

lemma setSeq_replicate {α : Type} :
    ∀ (l : List α) (n : Nat), l.length ≤ n →
      setSeq (List.replicate n (none : Option α)) 0 l =
        l.map some ++ List.replicate (n - l.length) none := by
  intro l
  induction l with
  | nil => intro n h; simp [setSeq]
  | cons a as ih =>
    intro n h
    rcases n with _ | m
    · simp at h
    · have hrep : List.replicate (m + 1) (none : Option α) =
          none :: List.replicate m none := rfl
      simp only [setSeq, hrep, List.set_cons_zero]
      rw [setSeq_cons, ih m (by simpa using h)]
      simp

lemma fillTypes_eq (buf : List Nat) :
    ∀ (idxs : List Nat) (types : List (Option CoinType)) (cnt : Nat),
      (fillTypes buf idxs (types, cnt)).1 =
        setSeq types cnt
          ((idxs.filter (fun i => buf.getD (7 + i) 0 != 0)).map (mkCoinType buf)) := by
  intro idxs
  induction idxs with
  | nil => intro types cnt; rfl
  | cons i rest ih =>
    intro types cnt
    rcases hb : buf.getD (7 + i) 0 != 0
    · simp only [fillTypes, List.filter_cons, hb, Bool.false_eq_true, if_false]
      exact ih types cnt
    · simp only [fillTypes, List.filter_cons, hb, if_true, List.map_cons]
      rw [ih]
      rfl

lemma nzPositions_le (buf : List Nat) : (nzPositions buf).length ≤ 16 := by
  have := List.length_filter_le
    (fun i => buf.getD (7 + i) 0 != 0) (List.range 16)
  simpa [nzPositions] using this

lemma coinTypesOf_eq (buf : List Nat) :
    coinTypesOf buf =
      ((nzPositions buf).map (mkCoinType buf)).map some ++
        List.replicate (16 - (nzPositions buf).length) none := by
  have hnz := nzPositions_le buf
  have h : coinTypesOf buf =
      setSeq (List.replicate 16 none) 0 ((nzPositions buf).map (mkCoinType buf)) :=
    fillTypes_eq buf (List.range 16) (List.replicate 16 none) 0
  rw [h, setSeq_replicate _ _ (by simpa using hnz)]
  simp

lemma coinTypesOf_length (buf : List Nat) : (coinTypesOf buf).length = 16 := by
  have hnz := nzPositions_le buf
  rw [coinTypesOf_eq]
  simp only [List.length_append, List.length_map, List.length_replicate]
  omega

lemma updateTypes_proj (reply : List Nat) (types : List (Option CoinType))
    (hlen : types.length = 16) :
    ∀ j, ((updateTypes reply types).getD j none).map
        (fun ct => (ct.unscaled_value, ct.routeable_to_tube)) =
      (types.getD j none).map
        (fun ct => (ct.unscaled_value, ct.routeable_to_tube)) := by
  intro j
  by_cases hj : j < 16
  · simp only [updateTypes, List.getD_eq_getElem?_getD, List.getElem?_map,
      List.getElem?_range hj, Option.map_some']
    simp only [Option.getD_some, ← List.getD_eq_getElem?_getD]
    rcases ho : types.getD j none with _ | ct
    · rfl
    · rfl
  · have h1 : (updateTypes reply types).length ≤ j := by
      simp only [updateTypes, List.length_map, List.length_range]; omega
    have h2 : types.length ≤ j := by omega
    rw [List.getD_eq_default _ _ h1, List.getD_eq_default _ _ h2]

/-- Claim C2 (amended): the SETUP parse fills the coin-type table compactly:
the `j`-th occupied slot corresponds to the `j`-th nonzero raw byte, at raw
position `p_j`, carrying `unscaled_value = raw(p_j) × scaling_factor` and
`routeable_to_tube` = bit `p_j` of the route mask (hi byte first); all
remaining slots stay empty.  So slot `i` is occupied iff `i` is below the
count of nonzero raw bytes — not iff raw byte `i` is nonzero.  The
tube-status refresh performed afterwards by `init` preserves occupancy,
`unscaled_value` and `routeable_to_tube` of every slot. -/
theorem spec_c2 (buf reply : List Nat) :
    coinTypesOf buf =
      ((nzPositions buf).map (mkCoinType buf)).map some ++
        List.replicate (16 - (nzPositions buf).length) none
    ∧ (∀ j, ((updateTypes reply (coinTypesOf buf)).getD j none).map
          (fun ct => (ct.unscaled_value, ct.routeable_to_tube)) =
        ((coinTypesOf buf).getD j none).map
          (fun ct => (ct.unscaled_value, ct.routeable_to_tube))) :=
  ⟨coinTypesOf_eq buf, updateTypes_proj reply _ (coinTypesOf_length buf)⟩

lemma coinTypesOf_value_ne (buf : List Nat) (h : 1 ≤ buf.getD 3 0) :
    ∀ j ct, (coinTypesOf buf).getD j none = some ct → ct.unscaled_value ≠ 0 := by
  intro j ct hct
  rw [coinTypesOf_eq, List.getD_eq_getElem?_getD] at hct
  rcases hj : (((nzPositions buf).map (mkCoinType buf)).map some ++
      List.replicate (16 - (nzPositions buf).length) none)[j]? with _ | o
  · rw [hj] at hct; simp at hct
  · rw [hj] at hct
    simp only [Option.getD_some] at hct
    subst hct
    rw [List.getElem?_append] at hj
    split at hj
    · simp only [List.getElem?_map] at hj
      rcases hp : (nzPositions buf)[j]? with _ | p
      · rw [hp] at hj; simp at hj
      · rw [hp] at hj
        simp only [Option.map_some', Option.some.injEq] at hj
        have hmem : p ∈ nzPositions buf := List.getElem?_mem hp
        have hraw : buf.getD (7 + p) 0 ≠ 0 := by
          have h2 : p ∈ (List.range 16).filter
              (fun i => buf.getD (7 + i) 0 != 0) := hmem
          have h3 := (List.mem_filter.mp h2).2
          simpa using h3
        have hval : (mkCoinType buf p).unscaled_value =
            buf.getD (7 + p) 0 * buf.getD 3 0 := rfl
        rw [← hj, hval]
        exact Nat.mul_ne_zero hraw (by omega)
    · rw [List.getElem?_replicate] at hj
      split at hj <;> simp_all

lemma updateTypes_value_ne (buf reply : List Nat) (h : 1 ≤ buf.getD 3 0) :
    ∀ j ct, (updateTypes reply (coinTypesOf buf)).getD j none = some ct →
      ct.unscaled_value ≠ 0 := by
  intro j ct hct
  have hp := updateTypes_proj reply (coinTypesOf buf) (coinTypesOf_length buf) j
  rw [hct] at hp
  rcases ho : (coinTypesOf buf).getD j none with _ | ct2
  · rw [ho] at hp; simp at hp
  · rw [ho] at hp
    simp only [Option.map_some', Option.some.injEq, Prod.mk.injEq] at hp
    have := coinTypesOf_value_ne buf h j ct2 ho
    omega

lemma payoutL2Slots_divOk (credit fuel : Nat) :
    ∀ (slots : List (Nat × Option CoinType)) (paid : Nat) (bus : Bus),
      (∀ p ∈ slots, ∀ ct, p.2 = some ct → ct.unscaled_value ≠ 0) →
      (payoutL2Slots credit fuel slots paid true bus).2.1 = true := by
  intro slots
  induction slots with
  | nil => intro paid bus h; simp [payoutL2Slots]
  | cons p rest ih =>
    intro paid bus h
    rcases p with ⟨i, c⟩
    rcases c with _ | coin
    · simp only [payoutL2Slots]
      by_cases hp : paid = credit
      · rw [if_pos hp]
      · rw [if_neg hp]
        exact ih _ _ (fun q hq => h q (by simp [hq]))
    · have hv : coin.unscaled_value ≠ 0 := h (i, some coin) (by simp) coin rfl
      have hvb : (coin.unscaled_value != 0) = true := by simpa using hv
      simp only [payoutL2Slots, hvb, Bool.and_true]
      split <;> split
      · rfl
      · exact ih _ _ (fun q hq => h q (by simp [hq]))
      · rfl
      · exact ih _ _ (fun q hq => h q (by simp [hq]))

lemma payout_level2_divOk (acc : CoinAcceptor) (credit fuel : Nat) (bus : Bus)
    (h : ∀ j ct, acc.coin_types.getD j none = some ct → ct.unscaled_value ≠ 0) :
    (payout_level2 acc credit fuel bus).2.1 = true := by
  apply payoutL2Slots_divOk
  intro p hp ct hct
  rw [List.mem_reverse] at hp
  rcases List.mem_map.mp hp with ⟨i, hi, rfl⟩
  exact h i ct hct

lemma payout_level3_divOk (acc : CoinAcceptor) (credit fuel : Nat) (bus : Bus) :
    (payout_level3 acc credit fuel bus).2.1 = (acc.scaling_factor != 0) := by
  simp only [payout_level3]
  split <;> rfl

/-- Claim C10: for every coin-acceptor state produced from a SETUP reply with
scaling-factor byte at least 1 (tube-status refreshed or not), every occupied
slot's `unscaled_value` is nonzero, so neither the per-slot division of
`payout_level2` nor the `credit / scaling_factor` division of `payout_level3`
divides by zero; and `init` itself accepts a SETUP reply whose scaling byte
is 0 (the precondition is required of the peripheral, not established by the
driver). -/
theorem spec_c10 :
    (∀ (buf reply : List Nat) (credit fuel : Nat) (bus bus2 bus3 : Bus),
      1 ≤ buf.getD 3 0 →
      (payout_level2 { parseCoinAcceptor buf with
          coin_types := updateTypes reply (coinTypesOf buf) }
        credit fuel bus).2.1 = true
      ∧ (payout_level2 (parseCoinAcceptor buf) credit fuel bus2).2.1 = true
      ∧ (payout_level3 (parseCoinAcceptor buf) credit fuel bus3).2.1 = true)
    ∧ (coinInit ⟨[.status .ACK, .data [0x0B],
        .data ([2, 0, 0, 0, 0, 0, 0] ++ List.replicate 16 1),
        .data (List.replicate 18 0)], []⟩).1.isSome = true := by
  constructor
  · intro buf reply credit fuel bus bus2 bus3 h
    refine ⟨?_, ?_, ?_⟩
    · exact payout_level2_divOk _ _ _ _ (updateTypes_value_ne buf reply h)
    · exact payout_level2_divOk _ _ _ _ (coinTypesOf_value_ne buf h)
    · rw [payout_level3_divOk]
      have : (parseCoinAcceptor buf).scaling_factor = buf.getD 3 0 := rfl
      rw [this]
      simpa using (by omega : buf.getD 3 0 ≠ 0)
  · rfl

lemma prl_none_of_ge (level : CashlessDeviceFeatureLevel) (b : Nat)
    (hb : 19 ≤ b) : poll_response_length level b = none := by
  unfold poll_response_length
  repeat rw [if_neg (by omega)]

set_option maxHeartbeats 1000000 in
lemma prl_bounds (level : CashlessDeviceFeatureLevel) (b n : Nat)
    (h : poll_response_length level b = some n) : 1 ≤ n ∧ n ≤ 34 := by
  by_cases hb : b < 19
  · interval_cases b <;> cases level <;> simp_all [poll_response_length] <;> omega
  · rw [prl_none_of_ge level b (by omega)] at h
    cases h

lemma pollLoop_ne_error (level : CashlessDeviceFeatureLevel) (buf : List Nat)
    (len : Nat) (hlen : len ≤ 30) :
    ∀ (fuel index count : Nat) (events : List (Option PollEvent)),
      count ≤ index →
      pollLoop level buf len fuel index events count ≠ .error () := by
  intro fuel
  induction fuel with
  | zero => intro index count events hci; simp [pollLoop]
  | succ fuel ih =>
    intro index count events hci
    by_cases hidx : index < len
    · rcases heq : poll_response_length level (buf.getD index 0) with _ | elen
      · simp only [pollLoop, if_pos hidx, heq]
        simp
      · obtain ⟨he1, he2⟩ := prl_bounds level _ elen heq
        have hb : index + elen ≤ 64 := by omega
        rcases htf : PollEvent.tryFrom ((buf.drop index).take elen) with _ | ev
        · simp only [pollLoop, if_pos hidx, heq, if_pos hb, htf]
          exact ih _ _ _ (by omega)
        · have hc : count < 36 := by omega
          simp only [pollLoop, if_pos hidx, heq, if_pos hb, htf, if_pos hc]
          exact ih _ _ _ (by omega)
    · simp [pollLoop, hidx]

/-- Claim C9 (amended): tokenization never indexes past the 64-byte receive
buffer for frames of up to 30 data bytes (index stays below 30 and every
table length is at most 34, so `index + event_len ≤ 63`); longer frames can
overrun — see the counterexample (a PeripheralId header at index 31 of a
32-byte frame). -/
theorem spec_c9 (level : CashlessDeviceFeatureLevel) (buf : List Nat)
    (len : Nat) (h : len ≤ 30) : cashlessPoll level buf len ≠ .error () :=
  pollLoop_ne_error level buf len h len 0 0 (List.replicate 36 none)
    (Nat.le_refl 0)

/-- Witness for C9 on a one-byte frame. -/
theorem spec_c9_witness :
    (1 : Nat) ≤ 30 ∧ cashlessPoll .Level1 (List.replicate 64 0) 1 ≠ .error () :=
  ⟨by decide, spec_c9 .Level1 (List.replicate 64 0) 1 (by decide)⟩

lemma splitPoll_ge (level : CashlessDeviceFeatureLevel) :
    ∀ (f1 f2 : Nat) (bytes : List Nat),
      bytes.length ≤ f1 → bytes.length ≤ f2 →
      splitPoll level f1 bytes = splitPoll level f2 bytes := by
  intro f1
  induction f1 with
  | zero =>
    intro f2 bytes h1 h2
    rcases bytes with _ | ⟨b, rest⟩
    · rcases f2 with _ | f2' <;> rfl
    · simp at h1
  | succ f1 ih =>
    intro f2 bytes h1 h2
    rcases bytes with _ | ⟨b, rest⟩
    · rcases f2 with _ | f2' <;> rfl
    · rcases f2 with _ | f2'
      · simp at h2
      · simp only [splitPoll]
        rcases heq : poll_response_length level b with _ | elen <;>
          simp only [heq]
        obtain ⟨he1, he2⟩ := prl_bounds level _ elen heq
        by_cases hle : elen ≤ (b :: rest).length
        · rw [if_pos hle, if_pos hle]
          have hlen1 : ((b :: rest).drop elen).length ≤ f1 := by
            simp only [List.length_drop, List.length_cons]
            simp only [List.length_cons] at h1
            omega
          have hlen2 : ((b :: rest).drop elen).length ≤ f2' := by
            simp only [List.length_drop, List.length_cons]
            simp only [List.length_cons] at h2
            omega
          rw [ih f2' _ hlen1 hlen2]
        · rw [if_neg hle, if_neg hle]

lemma splitPollEvents_cons_inv (level : CashlessDeviceFeatureLevel) (b : Nat)
    (tail : List Nat) (chunks : List (List Nat))
    (h : splitPollEvents level (b :: tail) = some chunks) :
    ∃ elen cs, poll_response_length level b = some elen ∧ 1 ≤ elen ∧ elen ≤ 34 ∧
      elen ≤ tail.length + 1 ∧
      splitPollEvents level ((b :: tail).drop elen) = some cs ∧
      chunks = (b :: tail).take elen :: cs := by
  unfold splitPollEvents at h
  simp only [List.length_cons, splitPoll] at h
  rcases heq : poll_response_length level b with _ | elen <;>
    simp only [heq] at h
  · exact absurd h (by simp)
  · obtain ⟨he1, he2⟩ := prl_bounds level _ elen heq
    by_cases hle : elen ≤ tail.length + 1
    · rw [if_pos hle] at h
      rcases hsp : splitPoll level tail.length ((b :: tail).drop elen)
          with _ | cs <;> rw [hsp] at h
      · simp at h
      · simp only [Option.map_some', Option.some.injEq] at h
        refine ⟨elen, cs, rfl, he1, he2, hle, ?_, h.symm⟩
        unfold splitPollEvents
        have hdl : ((b :: tail).drop elen).length ≤ tail.length := by
          simp only [List.length_drop, List.length_cons]
          omega
        rw [splitPoll_ge level _ tail.length _ (Nat.le_refl _) hdl]
        exact hsp
    · rw [if_neg hle] at h
      simp at h

lemma drop_take_head (buf : List Nat) (index len : Nat)
    (h1 : index < len) (h2 : len ≤ buf.length) :
    (buf.drop index).take (len - index) =
      buf.getD index 0 :: (buf.drop (index + 1)).take (len - index - 1) := by
  have hb : index < buf.length := by omega
  rw [List.drop_eq_getElem_cons hb, List.getD_eq_getElem buf 0 hb]
  obtain ⟨k, hk⟩ : ∃ k, len - index = k + 1 := ⟨len - index - 1, by omega⟩
  rw [hk, List.take_succ_cons]
  simp

lemma drop_take_advance (buf : List Nat) (index len elen : Nat) :
    ((buf.drop index).take (len - index)).drop elen =
      (buf.drop (index + elen)).take (len - (index + elen)) := by
  rw [List.drop_take, List.drop_drop]
  congr 1
  omega

lemma pollLoop_wf (level : CashlessDeviceFeatureLevel) (buf : List Nat)
    (len : Nat) (hlen : len ≤ 36) (hbuf : len ≤ buf.length) :
    ∀ (fuel index count : Nat) (events : List (Option PollEvent))
      (chunks : List (List Nat)),
      index ≤ len → count ≤ index → len - index ≤ fuel →
      splitPollEvents level ((buf.drop index).take (len - index)) = some chunks →
      pollLoop level buf len fuel index events count =
        .ok (setSeq events count (chunks.filterMap PollEvent.tryFrom)) := by
  intro fuel
  induction fuel with
  | zero =>
    intro index count events chunks h1 h2 h3 hsp
    have hix : index = len := by omega
    subst hix
    rw [Nat.sub_self, List.take_zero] at hsp
    have hch : chunks = [] := by
      simpa [splitPollEvents, splitPoll] using hsp.symm
    subst hch
    simp [pollLoop, setSeq]
  | succ fuel ih =>
    intro index count events chunks h1 h2 h3 hsp
    by_cases hidx : index < len
    · have hrem := drop_take_head buf index len hidx hbuf
      rw [hrem] at hsp
      obtain ⟨elen, cs, heq, he1, he2, hle, hsp2, hch⟩ :=
        splitPollEvents_cons_inv level _ _ _ hsp
      subst hch
      have htl : ((buf.drop (index + 1)).take (len - index - 1)).length =
          len - index - 1 := by
        rw [List.length_take, List.length_drop]
        exact min_eq_left (by omega)
      rw [htl] at hle
      have hle2 : elen ≤ len - index := by omega
      rw [← hrem, drop_take_advance buf index len elen] at hsp2
      have hslice : (buf.drop index).take elen =
          (buf.getD index 0 ::
            (buf.drop (index + 1)).take (len - index - 1)).take elen := by
        rw [← hrem, List.take_take, min_eq_left hle2]
      have hb64 : index + elen ≤ 64 := by omega
      simp only [pollLoop, if_pos hidx, heq, if_pos hb64]
      rw [hslice]
      rcases htf : PollEvent.tryFrom ((buf.getD index 0 ::
          (buf.drop (index + 1)).take (len - index - 1)).take elen) with _ | ev
      · simp only [List.filterMap_cons, htf]
        exact ih (index + elen) count events cs (by omega) (by omega)
          (by omega) hsp2
      · have hc : count < 36 := by omega
        simp only [List.filterMap_cons, htf, if_pos hc, setSeq]
        exact ih (index + elen) (count + 1) (events.set count (some ev)) cs
          (by omega) (by omega) (by omega) hsp2
    · have hix : index = len := by omega
      subst hix
      rw [Nat.sub_self, List.take_zero] at hsp
      have hch : chunks = [] := by
        simpa [splitPollEvents, splitPoll] using hsp.symm
      subst hch
      simp [pollLoop, setSeq]

lemma pollLoop_bad (level : CashlessDeviceFeatureLevel) (buf : List Nat)
    (len : Nat) (hlen : len ≤ 36) (hbuf : len ≤ buf.length) :
    ∀ (fuel index count : Nat) (events : List (Option PollEvent))
      (good : List Nat) (bad : Nat) (tail : List Nat)
      (chunks : List (List Nat)),
      index ≤ len → count ≤ index → len - index ≤ fuel →
      (buf.drop index).take (len - index) = good ++ bad :: tail →
      splitPollEvents level good = some chunks →
      poll_response_length level bad = none →
      pollLoop level buf len fuel index events count =
        .ok (setSeq events count (chunks.filterMap PollEvent.tryFrom)) := by
  intro fuel
  induction fuel with
  | zero =>
    intro index count events good bad tail chunks h1 h2 h3 hrem hsp hbad
    have hix : index = len := by omega
    subst hix
    rw [Nat.sub_self, List.take_zero] at hrem
    exact absurd hrem.symm (by simp)
  | succ fuel ih =>
    intro index count events good bad tail chunks h1 h2 h3 hrem hsp hbad
    by_cases hidx : index < len
    · have hhead := drop_take_head buf index len hidx hbuf
      rw [hhead] at hrem
      rcases good with _ | ⟨g0, gtail⟩
      · have hch : chunks = [] := by
          simpa [splitPollEvents, splitPoll] using hsp.symm
        subst hch
        simp only [List.nil_append] at hrem
        injection hrem with hb htails
        simp only [pollLoop, if_pos hidx, hb, hbad, List.filterMap_nil, setSeq]
      · rw [List.cons_append] at hrem
        injection hrem with hg htails
        obtain ⟨elen, cs, heq, he1, he2, hle, hsp2, hch⟩ :=
          splitPollEvents_cons_inv level g0 gtail chunks hsp
        subst hch
        have htl2 : ((buf.drop (index + 1)).take (len - index - 1)).length =
            len - index - 1 := by
          rw [List.length_take, List.length_drop]
          exact min_eq_left (by omega)
        have hlen2 : len - index - 1 = gtail.length + (tail.length + 1) := by
          have hlc := congrArg List.length htails
          rw [htl2] at hlc
          simpa using hlc
        have helen2 : elen ≤ len - index := by omega
        have hb64 : index + elen ≤ 64 := by omega
        have hslice : (buf.drop index).take elen = (g0 :: gtail).take elen := by
          calc (buf.drop index).take elen
              = ((buf.drop index).take (len - index)).take elen := by
                rw [List.take_take, min_eq_left helen2]
            _ = ((g0 :: gtail) ++ bad :: tail).take elen := by
                rw [hhead, hg, htails, ← List.cons_append]
            _ = (g0 :: gtail).take elen :=
                List.take_append_of_le_length (by simpa using hle)
        have hadv : (buf.drop (index + elen)).take (len - (index + elen)) =
            (g0 :: gtail).drop elen ++ bad :: tail := by
          rw [← drop_take_advance buf index len elen]
          rw [hhead, hg, htails, ← List.cons_append]
          exact List.drop_append_of_le_length (by simpa using hle)
        simp only [pollLoop, if_pos hidx, hg, heq, if_pos hb64]
        rw [hslice]
        rcases htf : PollEvent.tryFrom ((g0 :: gtail).take elen) with _ | ev
        · simp only [List.filterMap_cons, htf]
          exact ih (index + elen) count events ((g0 :: gtail).drop elen) bad
            tail cs (by omega) (by omega) (by omega) hadv hsp2 hbad
        · have hc : count < 36 := by omega
          simp only [List.filterMap_cons, htf, if_pos hc, setSeq]
          exact ih (index + elen) (count + 1) (events.set count (some ev))
            ((g0 :: gtail).drop elen) bad tail cs
            (by omega) (by omega) (by omega) hadv hsp2 hbad
    · have hix : index = len := by omega
      subst hix
      rw [Nat.sub_self, List.take_zero] at hrem
      exact absurd hrem.symm (by simp)

/-- Claim C4 (amended): for a poll data frame of at most 36 bytes in the
64-byte buffer, (a) when the frame splits exactly into table-sized
sub-events, `poll` yields, in buffer order, one event per sub-event that
parses successfully — sub-events whose first byte is 0x02, 0x0E or 0x0F are
sized and skipped without yielding an event — placed in the leading slots of
the 36-slot array; (b) when a first byte outside the sizing table is reached,
it yields exactly the events of the well-formed prefix and abandons the rest
of the frame. -/
theorem spec_c4 (level : CashlessDeviceFeatureLevel) (buf : List Nat)
    (len : Nat) (hbuf : buf.length = 64) (hlen : len ≤ 36) :
    (∀ chunks, splitPollEvents level (buf.take len) = some chunks →
      cashlessPoll level buf len =
        .ok (setSeq (List.replicate 36 none) 0
          (chunks.filterMap PollEvent.tryFrom)))
    ∧ (∀ good bad tail chunks, buf.take len = good ++ bad :: tail →
        splitPollEvents level good = some chunks →
        poll_response_length level bad = none →
        cashlessPoll level buf len =
          .ok (setSeq (List.replicate 36 none) 0
            (chunks.filterMap PollEvent.tryFrom))) := by
  have hbl : len ≤ buf.length := by omega
  constructor
  · intro chunks hsp
    exact pollLoop_wf level buf len hlen hbl len 0 0 _ chunks (by omega)
      (by omega) (by omega) (by simpa using hsp)
  · intro good bad tail chunks hrem hsp hbad
    exact pollLoop_bad level buf len hlen hbl len 0 0 _ good bad tail chunks
      (by omega) (by omega) (by omega) (by simpa using hrem) hsp hbad

/-- Witness for C4 on the two-sub-event frame `[0x07, 0x06]`. -/
theorem spec_c4_witness :
    ((2 : Nat) ≤ 36)
    ∧ cashlessPoll .Level1 ([7, 6] ++ List.replicate 62 0) 2 =
        .ok (setSeq (List.replicate 36 none) 0
          ([[7], [6]].filterMap PollEvent.tryFrom)) :=
  ⟨by decide,
    (spec_c4 .Level1 ([7, 6] ++ List.replicate 62 0) 2 (by decide)
      (by decide)).1 [[7], [6]] (by decide)⟩

/-- Witness for C10 at a SETUP reply with scaling factor 1. -/
theorem spec_c10_witness :
    1 ≤ (([2, 0, 0, 1, 0, 0, 0] ++ List.replicate 16 1 : List Nat)).getD 3 0
    ∧ (payout_level3
        (parseCoinAcceptor ([2, 0, 0, 1, 0, 0, 0] ++ List.replicate 16 1))
        7 3 ⟨[], []⟩).2.1 = true :=
  ⟨by decide,
    (spec_c10.1 ([2, 0, 0, 1, 0, 0, 0] ++ List.replicate 16 1) [] 7 3
      ⟨[], []⟩ ⟨[], []⟩ ⟨[], []⟩ (by decide)).2.2⟩

/-- Witness for C1: an ACKed vend request returns true. -/
theorem spec_c1_witness :
    (start_transaction ⟨[.status .ACK], []⟩ 5 [0, 1]).1 = true :=
  ((spec_c1 5 0 1 [.status .ACK]).2).mpr rfl

/-- Witness for C2 at a concrete SETUP reply. -/
theorem spec_c2_witness :
    coinTypesOf ([2, 0, 0, 2, 0, 0, 1] ++ [3, 0, 4] ++ List.replicate 13 0) =
      ((nzPositions ([2, 0, 0, 2, 0, 0, 1] ++ [3, 0, 4] ++
          List.replicate 13 0)).map
        (mkCoinType ([2, 0, 0, 2, 0, 0, 1] ++ [3, 0, 4] ++
          List.replicate 13 0))).map some ++
      List.replicate (16 - (nzPositions ([2, 0, 0, 2, 0, 0, 1] ++ [3, 0, 4] ++
          List.replicate 13 0)).length) none :=
  (spec_c2 ([2, 0, 0, 2, 0, 0, 1] ++ [3, 0, 4] ++ List.replicate 13 0) []).1

/-- Witness for C8 at a concrete handshake script. -/
theorem spec_c8_witness :
    (coinInit ⟨[.status .ACK, .data [0x0B], .data (List.replicate 23 0),
        .status .ACK, .status .ACK], []⟩).1.isSome =
      coinSetupAccepted (.data (List.replicate 23 0)) :=
  (spec_c8 (.status .ACK) (.data [0x0B]) (.data (List.replicate 23 0))
    (.status .ACK) (.status .ACK) []).1

end MdbAsync
